import Mathlib

set_option maxRecDepth 20000

/-!
Verification of the team roster script (`team_roster.py`).

The script keeps a module-level list `team` of `TeamMember` records and
offers three operations: `display_team` (print a formatted block),
`add_member` (append a record and print a welcome line) and `find_member`
(first case-insensitive name match, scanning in order).

The embedding is direct: Python strings become `String`, the mutable global
list becomes explicit state passing of a `List TeamMember`, and each `print`
call contributes its argument followed by a newline to an output `String`.
-/

/-- A member record: `class TeamMember` with the three free-form text fields
set by its constructor. -/
structure TeamMember where
  name : String
  role : String
  favorite_language : String
  deriving DecidableEq, Repr

/-- The apostrophe character (codepoint 39) used by the introduction text. -/
def apos : String := String.mk [Char.ofNat 39]

/-- `TeamMember.introduce`: the introduction template
`Hi! I<apos>m {name}, a {role}. I love coding in {favorite_language}!`. -/
def TeamMember.introduce (m : TeamMember) : String :=
  "Hi! I" ++ apos ++ "m " ++ m.name ++ ", a " ++ m.role ++
    ". I love coding in " ++ m.favorite_language ++ "!"

/-- The module-level seed roster `team`, in source order. -/
def team : List TeamMember :=
  [ ⟨"Alice Chen", "Senior Developer", "Python"⟩,
    ⟨"Bob Wang", "DevOps Engineer", "Go"⟩,
    ⟨"Carol Lin", "Frontend Developer", "JavaScript"⟩ ]

/-- The banner `"=" * 50` printed by `display_team`. -/
def banner : String := String.mk (List.replicate 50 (Char.ofNat 61))

/-- One `print(s)` call: the argument followed by a newline. -/
def printLine (s : String) : String := s ++ "\n"

/-- The lines produced by the member loop of `display_team`, in roster
order: one `member.introduce()` per member. -/
def memberLines (t : List TeamMember) : List String :=
  t.map (fun m => m.introduce)

/-- `display_team`: the whole text the function writes to standard output,
one `printLine` per `print` statement of the source. The count print
argument starts with a newline, hence the blank line before the count. -/
def display_team (t : List TeamMember) : String :=
  printLine banner ++ printLine "TEAM ROSTER" ++ printLine banner ++
    String.join ((memberLines t).map printLine) ++
    printLine ("\n" ++ "Total team members: " ++ toString t.length) ++
    printLine banner

/-- `add_member`: builds `new_member` from the three inputs, appends it to
the roster, prints the welcome line. The Python body has no return
statement, so the call evaluates to `None`; the third component records
that return value as an `Option TeamMember`. -/
def add_member (t : List TeamMember) (name role favorite_language : String) :
    List TeamMember × String × Option TeamMember :=
  let new_member : TeamMember := ⟨name, role, favorite_language⟩
  (t ++ [new_member], printLine ("Welcome " ++ name ++ " to the team!"), none)

/-- Model of Python `str.lower` on one character. Every string this program
compares is ASCII, where `lower` adds 32 to the codepoints 65 through 90
(the uppercase letters) and leaves every other character unchanged. -/
def pyLowerChar (c : Char) : Char :=
  if 65 ≤ c.toNat ∧ c.toNat ≤ 90 then Char.ofNat (c.toNat + 32) else c

/-- Model of Python `str.lower`: lowercases every character of the string. -/
def pyLower (s : String) : String := String.mk (s.data.map pyLowerChar)

/-- `find_member`: scan the roster in order and return the first member
whose lowered name equals the lowered query; `None` when none does. -/
def find_member (t : List TeamMember) (name : String) : Option TeamMember :=
  match t with
  | [] => none
  | member :: rest =>
      if pyLower member.name = pyLower name then some member
      else find_member rest name

/-- The comparison `member.name.lower() == name.lower()` done by
`find_member`: case-insensitive equality of a member name and a query. -/
def nameMatches (m : TeamMember) (q : String) : Prop :=
  pyLower m.name = pyLower q

instance (m : TeamMember) (q : String) : Decidable (nameMatches m q) :=
  inferInstanceAs (Decidable (pyLower m.name = pyLower q))

/-- One operation a caller of the script can perform on the roster. -/
inductive Op where
  | addOp (name role favorite_language : String)
  | findOp (q : String)
  | renderOp
  deriving DecidableEq, Repr

/-- Whether an operation is an `add_member` call. -/
def Op.isAdd : Op → Bool
  | .addOp _ _ _ => true
  | _ => false

/-- The roster after one operation, with the text that operation writes to
standard output: `find_member` writes nothing and returns the roster
untouched, `display_team` writes its block and returns the roster
untouched, `add_member` appends one record and writes the welcome line. -/
def runOp (t : List TeamMember) : Op → List TeamMember × String
  | .addOp n r f => ((add_member t n r f).1, (add_member t n r f).2.1)
  | .findOp _ => (t, "")
  | .renderOp => (t, display_team t)

/-- The roster reached after a sequence of operations. -/
def runOps (t : List TeamMember) (ops : List Op) : List TeamMember :=
  ops.foldl (fun s o => (runOp s o).1) t

/-- The output of the script entry point: `display_team()` on the seed
roster. -/
def main_output : String := display_team team

/-- The literal standard-output block given by the specification for the
seeded three-member roster. -/
def specOutput : String :=
  "=========================" ++ "=========================\n" ++
  "TEAM ROSTER\n" ++
  "=========================" ++ "=========================\n" ++
  "Hi! I" ++ apos ++ "m Alice Chen, a Senior Developer. I love coding in Python!\n" ++
  "Hi! I" ++ apos ++ "m Bob Wang, a DevOps Engineer. I love coding in Go!\n" ++
  "Hi! I" ++ apos ++ "m Carol Lin, a Frontend Developer. I love coding in JavaScript!\n" ++
  "\n" ++
  "Total team members: 3\n" ++
  "=========================" ++ "=========================\n"

/-- The expected block after adding Dana Kim to the seed roster: four
introduction lines with Dana Kim fourth, and a count of 4. -/
def danaOutput : String :=
  "=========================" ++ "=========================\n" ++
  "TEAM ROSTER\n" ++
  "=========================" ++ "=========================\n" ++
  "Hi! I" ++ apos ++ "m Alice Chen, a Senior Developer. I love coding in Python!\n" ++
  "Hi! I" ++ apos ++ "m Bob Wang, a DevOps Engineer. I love coding in Go!\n" ++
  "Hi! I" ++ apos ++ "m Carol Lin, a Frontend Developer. I love coding in JavaScript!\n" ++
  "Hi! I" ++ apos ++ "m Dana Kim, a Intern. I love coding in Rust!\n" ++
  "\n" ++
  "Total team members: 4\n" ++
  "=========================" ++ "=========================\n"

/-- The expected block for an empty roster: both banners, the title, no
member lines, the blank line and a count of 0. -/
def emptyOutput : String :=
  "=========================" ++ "=========================\n" ++
  "TEAM ROSTER\n" ++
  "=========================" ++ "=========================\n" ++
  "\n" ++
  "Total team members: 0\n" ++
  "=========================" ++ "=========================\n"

/-- C1: running the entry point (seed roster, then `display_team`) writes
exactly the literal block of the specification: a banner of 50 equals
signs, the line TEAM ROSTER, the banner again, one introduction line per
seed member in insertion order, a blank line before the count line for 3
members, and a closing banner. -/
theorem main_output_is_spec_block :
    main_output = specOutput ∧
      banner = String.mk (List.replicate 50 (Char.ofNat 61)) ∧
      banner.length = 50 := by
  refine ⟨by decide, rfl, by decide⟩

/-- C10: on the empty roster `display_team` still succeeds, producing the
banner, the title line, the banner, no member lines, a blank line, the
count line for 0 members and the closing banner. -/
theorem display_team_empty_roster :
    display_team [] = emptyOutput ∧ memberLines ([] : List TeamMember) = [] :=
  ⟨by decide, rfl⟩

/-- Evaluating `Char.ofNat` below the surrogate range. -/
theorem char_toNat_ofNat_lt {n : Nat} (h : n < 55296) :
    (Char.ofNat n).toNat = n := by
  have hv : n.isValidChar := Or.inl h
  unfold Char.ofNat
  rw [dif_pos hv]
  rfl

/-- Lowering a character twice equals lowering it once. -/
theorem pyLowerChar_idem (c : Char) :
    pyLowerChar (pyLowerChar c) = pyLowerChar c := by
  unfold pyLowerChar
  by_cases h : 65 ≤ c.toNat ∧ c.toNat ≤ 90
  · rw [if_pos h, char_toNat_ofNat_lt (by omega : c.toNat + 32 < 55296),
      if_neg (by omega)]
  · rw [if_neg h, if_neg h]

/-- Lowering a string twice equals lowering it once. -/
theorem pyLower_idem (s : String) : pyLower (pyLower s) = pyLower s := by
  show String.mk ((s.data.map pyLowerChar).map pyLowerChar) =
    String.mk (s.data.map pyLowerChar)
  rw [List.map_map]
  exact congrArg String.mk (List.map_congr_left (fun a _ => pyLowerChar_idem a))

/-- Scanning past a block of members none of which matches the query. -/
theorem find_member_append_of_no_match (t rest : List TeamMember)
    (q : String) (h : ∀ m ∈ t, ¬ nameMatches m q) :
    find_member (t ++ rest) q = find_member rest q := by
  induction t with
  | nil => rfl
  | cons a t2 ih =>
      have ha : ¬ (pyLower a.name = pyLower q) := h a (List.mem_cons_self a t2)
      simp only [List.cons_append, find_member, if_neg ha]
      exact ih (fun m hm => h m (List.mem_cons_of_mem a hm))

/-- C2: `find_member` returns the first member, in insertion order, whose
name matches the query case-insensitively, and the `none` sentinel exactly
when no member of the roster matches. -/
theorem find_member_first_match (t : List TeamMember) (q : String) :
    (find_member t q = none ↔ ∀ m ∈ t, ¬ nameMatches m q) ∧
    ∀ m : TeamMember, find_member t q = some m ↔
      nameMatches m q ∧
        ∃ pre post, t = pre ++ m :: post ∧ ∀ x ∈ pre, ¬ nameMatches x q := by
  induction t with
  | nil =>
      constructor
      · simp [find_member]
      · intro m
        constructor
        · intro hsome
          simp [find_member] at hsome
        · rintro ⟨-, pre, post, hlist, -⟩
          cases pre <;> simp at hlist
  | cons a rest ih =>
      by_cases ha : pyLower a.name = pyLower q
      · have hfind : find_member (a :: rest) q = some a := by
          simp only [find_member, if_pos ha]
        constructor
        · rw [hfind]
          constructor
          · intro h2
            exact Option.noConfusion h2
          · intro hall
            exact absurd ha (hall a (List.mem_cons_self a rest))
        · intro m
          rw [hfind]
          constructor
          · intro h2
            injection h2 with h3
            subst h3
            exact ⟨ha, [], rest, rfl, by simp⟩
          · rintro ⟨hmq, pre, post, hlist, hpre⟩
            cases pre with
            | nil =>
                simp only [List.nil_append] at hlist
                injection hlist with h1 h2
                rw [h1]
            | cons b pre2 =>
                simp only [List.cons_append] at hlist
                injection hlist with h1 h2
                subst h1
                exact absurd ha (hpre a (List.mem_cons_self a pre2))
      · have hfind : find_member (a :: rest) q = find_member rest q := by
          simp only [find_member, if_neg ha]
        obtain ⟨ih1, ih2⟩ := ih
        constructor
        · rw [hfind, ih1]
          constructor
          · intro hall m hm
            rcases List.mem_cons.mp hm with h2 | h2
            · rw [h2]
              exact ha
            · exact hall m h2
          · intro hall m hm
            exact hall m (List.mem_cons_of_mem a hm)
        · intro m
          rw [hfind, ih2 m]
          constructor
          · rintro ⟨hmq, pre, post, hlist, hpre⟩
            refine ⟨hmq, a :: pre, post, by rw [List.cons_append, hlist], ?_⟩
            intro x hx
            rcases List.mem_cons.mp hx with h2 | h2
            · rw [h2]
              exact ha
            · exact hpre x h2
          · rintro ⟨hmq, pre, post, hlist, hpre⟩
            cases pre with
            | nil =>
                simp only [List.nil_append] at hlist
                injection hlist with h1 h2
                exact absurd (h1 ▸ hmq) ha
            | cons b pre2 =>
                simp only [List.cons_append] at hlist
                injection hlist with h1 h2
                subst h1
                exact ⟨hmq, pre2, post, h2,
                  fun x hx => hpre x (List.mem_cons_of_mem a hx)⟩

/-- C3 counterexample: at a concrete input, the value `add_member` returns
to its caller is `None`, not the newly constructed member. -/
theorem add_member_return_value_is_none :
    (add_member team "Dana Kim" "Intern" "Rust").2.2 = none ∧
    (add_member team "Dana Kim" "Intern" "Rust").2.2 ≠
      some ⟨"Dana Kim", "Intern", "Rust"⟩ :=
  ⟨rfl, by decide⟩

/-- C3 amended: `add_member` constructs a member from the three inputs and
appends it to the end of the roster, but returns `None` to the caller
rather than the new member (its body has no return statement). -/
theorem add_member_appends_and_returns_none (t : List TeamMember)
    (n r f : String) :
    (add_member t n r f).1 = t ++ [⟨n, r, f⟩] ∧
    (add_member t n r f).2.2 = none :=
  ⟨rfl, rfl⟩

/-- C4: `add_member` increases the roster length by exactly one and its
member yields the last introduction line afterwards; concretely, after
adding Dana Kim to the seed roster, `display_team` prints a count of 4 with
the Dana Kim line fourth. -/
theorem add_member_grows_roster_by_one (t : List TeamMember)
    (n r f : String) :
    ((add_member t n r f).1).length = t.length + 1 ∧
    memberLines ((add_member t n r f).1) =
      memberLines t ++ [TeamMember.introduce ⟨n, r, f⟩] ∧
    display_team ((add_member team "Dana Kim" "Intern" "Rust").1) =
      danaOutput ∧
    (memberLines ((add_member team "Dana Kim" "Intern" "Rust").1))[3]? =
      some (TeamMember.introduce ⟨"Dana Kim", "Intern", "Rust"⟩) := by
  refine ⟨by simp [add_member], by simp [add_member, memberLines],
    by decide, by decide⟩

/-- C5: adding two members with the same name keeps both records in the
roster, and `find_member` on that name returns the first of the two,
provided no earlier member already matches it. -/
theorem duplicate_names_kept_and_find_first (t : List TeamMember)
    (n r1 f1 r2 f2 : String) (h : ∀ m ∈ t, ¬ nameMatches m n) :
    ((add_member ((add_member t n r1 f1).1) n r2 f2).1).length =
      t.length + 2 ∧
    (⟨n, r1, f1⟩ : TeamMember) ∈
      (add_member ((add_member t n r1 f1).1) n r2 f2).1 ∧
    (⟨n, r2, f2⟩ : TeamMember) ∈
      (add_member ((add_member t n r1 f1).1) n r2 f2).1 ∧
    find_member ((add_member ((add_member t n r1 f1).1) n r2 f2).1) n =
      some ⟨n, r1, f1⟩ := by
  have hshape : (add_member ((add_member t n r1 f1).1) n r2 f2).1 =
      t ++ [⟨n, r1, f1⟩, ⟨n, r2, f2⟩] := by
    simp [add_member]
  refine ⟨?_, ?_, ?_, ?_⟩
  · rw [hshape]
    simp
  · rw [hshape]
    simp
  · rw [hshape]
    simp
  · rw [hshape, find_member_append_of_no_match t _ n h]
    simp [find_member]

/-- C5 witness: the concrete duplicate insertion of two Dana Kim records on
the seed roster, where no seed member matches the name Dana Kim. -/
theorem duplicate_names_kept_and_find_first_witness :
    (∀ m ∈ team, ¬ nameMatches m "Dana Kim") ∧
    find_member ((add_member ((add_member team "Dana Kim" "Intern" "Rust").1)
        "Dana Kim" "Manager" "Go").1) "Dana Kim" =
      some ⟨"Dana Kim", "Intern", "Rust"⟩ :=
  ⟨by decide, (duplicate_names_kept_and_find_first team "Dana Kim" "Intern"
      "Rust" "Manager" "Go" (by decide)).2.2.2⟩

/-- Running operations only ever appends: the starting roster stays at the
front of the result, and the number of appended records equals the number
of add operations performed. -/
theorem runOps_appends (ops : List Op) (t : List TeamMember) :
    ∃ rest, runOps t ops = t ++ rest ∧
      rest.length = ops.countP Op.isAdd := by
  induction ops generalizing t with
  | nil => exact ⟨[], by simp [runOps], by simp⟩
  | cons o ops2 ih =>
      cases o with
      | addOp n r f =>
          obtain ⟨rest, hrest, hlen⟩ := ih (t ++ [(⟨n, r, f⟩ : TeamMember)])
          refine ⟨⟨n, r, f⟩ :: rest, ?_, ?_⟩
          · calc runOps t (Op.addOp n r f :: ops2)
                = runOps (t ++ [⟨n, r, f⟩]) ops2 := rfl
              _ = (t ++ [⟨n, r, f⟩]) ++ rest := hrest
              _ = t ++ ⟨n, r, f⟩ :: rest := by simp
          · simp [List.countP_cons, Op.isAdd, hlen]
      | findOp q =>
          obtain ⟨rest, hrest, hlen⟩ := ih t
          exact ⟨rest, hrest, by simp [List.countP_cons, Op.isAdd, hlen]⟩
      | renderOp =>
          obtain ⟨rest, hrest, hlen⟩ := ih t
          exact ⟨rest, hrest, by simp [List.countP_cons, Op.isAdd, hlen]⟩

/-- C6: every reachable roster state extends its starting state: the
starting members are still at the front, unchanged, and the length is the
starting length plus the number of add operations; for the seed roster the
length is 3 plus the number of adds. No operation removes or mutates a
member. -/
theorem roster_length_invariant (ops : List Op) (t : List TeamMember) :
    (∃ rest, runOps t ops = t ++ rest) ∧
    (runOps t ops).length = t.length + ops.countP Op.isAdd ∧
    (runOps team ops).length = 3 + ops.countP Op.isAdd := by
  obtain ⟨rest, hrest, hlen⟩ := runOps_appends ops t
  obtain ⟨rest2, hrest2, hlen2⟩ := runOps_appends ops team
  refine ⟨⟨rest, hrest⟩, ?_, ?_⟩
  · rw [hrest]
    simp [hlen]
  · rw [hrest2]
    simp only [List.length_append, hlen2, team, List.length_cons,
      List.length_nil]

/-- C7: `add_member` accepts every input with no failure path; its only
output is the welcome line, which contains the given name between a fixed
greeting and a fixed tail; `find_member` reports absence with the `none`
sentinel instead of signalling an error. -/
theorem add_always_succeeds_with_welcome (t : List TeamMember)
    (n r f q : String) :
    (add_member t n r f).2.1 = printLine ("Welcome " ++ n ++ " to the team!") ∧
    (∃ pre post, (add_member t n r f).2.1 = pre ++ n ++ post) ∧
    (find_member t q = none ∨ ∃ m, find_member t q = some m) := by
  refine ⟨rfl, ⟨"Welcome ", " to the team!" ++ "\n",
    String.append_assoc ("Welcome " ++ n) " to the team!" "\n"⟩, ?_⟩
  cases find_member t q with
  | none => exact Or.inl rfl
  | some m => exact Or.inr ⟨m, rfl⟩

/-- C8: `find_member` is invariant under the case of its query: lowering
the query first changes nothing, and the three casings of the Alice Chen
query all return the Alice Chen seed member. -/
theorem find_member_case_insensitive (t : List TeamMember) (q : String) :
    find_member t q = find_member t (pyLower q) ∧
    find_member team "alice chen" =
      some ⟨"Alice Chen", "Senior Developer", "Python"⟩ ∧
    find_member team "ALICE CHEN" =
      some ⟨"Alice Chen", "Senior Developer", "Python"⟩ ∧
    find_member team "Alice Chen" =
      some ⟨"Alice Chen", "Senior Developer", "Python"⟩ := by
  refine ⟨?_, by decide, by decide, by decide⟩
  induction t with
  | nil => rfl
  | cons a rest ih =>
      simp only [find_member, pyLower_idem, ih]

/-- C9: rendering is pure with respect to program state: `display_team`
leaves the roster, hence every member record and every introduction line,
unchanged, and only yields its formatted block as output; `find_member`
likewise leaves the roster unchanged. -/
theorem display_team_preserves_roster (t : List TeamMember) (q : String) :
    (runOp t Op.renderOp).1 = t ∧
    (runOp t Op.renderOp).2 = display_team t ∧
    (runOp t (Op.findOp q)).1 = t ∧
    memberLines (runOp t Op.renderOp).1 = memberLines t :=
  ⟨rfl, rfl, rfl, rfl⟩
